import Mathlib

/-!
# Verification of the agentic-doc orchestration core

Shallow embedding of the agentic-doc client library (split → dispatch →
retry → merge pipeline plus grounding crop materialization) and proofs of
the spec's claims about it.

Sources embedded:
* `agentic_doc/utils.py` — `split_pdf`, `_crop_image`,
  `save_groundings_as_images` / `_crop_groundings`, `log_retry_failure`;
* `agentic_doc/config.py` — the `Settings` getter/setter machinery with its
  validation rules and the `_MAX_PARALLEL_TASKS` product check;
* the merger / request-client / per-part parsing layer (`agentic_doc/parse.py`
  and `agentic_doc/common.py` are not part of the provided sources; those
  pieces are modelled from the spec, as marked on each definition).
-/

namespace AgenticDoc

/-! ## Data model (`agentic_doc/common.py`, mirrored from the spec's data
model and the fields used by the unit tests) -/

/-- A chunk's type tag.  From `ChunkType` (text/title/table/figure/
marginalia/error). -/
inductive ChunkType where
  | text
  | title
  | table
  | figure
  | marginalia
  | error
deriving DecidableEq, Repr

/-- Normalized bounding box `{l, t, r, b}`; the Python floats are embedded
as rationals. From `ChunkGroundingBox`. -/
structure ChunkGroundingBox where
  l : ℚ
  t : ℚ
  r : ℚ
  b : ℚ
deriving DecidableEq, Repr

/-- A grounding: zero-based page index plus optional normalized bounding
box.  From `ChunkGrounding`. -/
structure ChunkGrounding where
  page : ℕ
  box : Option ChunkGroundingBox
deriving DecidableEq, Repr

/-- One extracted content unit.  From `Chunk`. -/
structure Chunk where
  text : String
  chunk_type : ChunkType
  chunk_id : String
  grounding : List ChunkGrounding
deriving DecidableEq, Repr

/-- One unit of parsing work: a source reference restricted to an inclusive
page range.  From `Document` (the `file_path` field is kept as the artifact
name written by the splitter). -/
structure Document where
  file_path : String
  start_page_idx : ℕ
  end_page_idx : ℕ
deriving DecidableEq, Repr

/-- The per-document (or per-part) result.  From `ParsedDocument`. -/
structure ParsedDocument where
  markdown : String
  chunks : List Chunk
  start_page_idx : ℕ
  end_page_idx : ℕ
  doc_type : String
deriving DecidableEq, Repr

/-! ## Splitter (`agentic_doc/utils.py`, `split_pdf`)

The Python loop is

```
for start in range(0, total_pages, split_size):
    ...add pages start .. min(start+split_size, total_pages)-1...
    output_pdfs.append(Document(..., start_page_idx=start,
        end_page_idx=min(start + split_size - 1, total_pages - 1)))
```

embedded as a fuel-based loop (`total_pages` iterations always suffice
because each step advances `start` by `split_size ≥ 1`). -/

/-- One iteration of `split_pdf`'s loop: emit the part `[start,
min (start + split_size - 1) (total - 1)]` while `start < total`. -/
def splitLoop (total split_size : ℕ) : ℕ → ℕ → List Document
  | 0, _ => []
  | fuel + 1, start =>
    if start < total then
      { file_path := "part_" ++ toString start,
        start_page_idx := start,
        end_page_idx := min (start + split_size - 1) (total - 1) }
        :: splitLoop total split_size fuel (start + split_size)
    else []

/-- The ordered list of parts produced by `split_pdf` on a `total_pages`-page
document with the given `split_size` (the page-range content of the
returned `Document` list). -/
def split_pdf_parts (total_pages split_size : ℕ) : List Document :=
  splitLoop total_pages split_size total_pages 0

/-- The inclusive page range `[start_page_idx, end_page_idx]` of a part, as
the list of its page indices. -/
def Document.pages (d : Document) : List ℕ :=
  List.range' d.start_page_idx (d.end_page_idx + 1 - d.start_page_idx)

/-! ## Splitter guards (`agentic_doc/utils.py`, `split_pdf` lines 162-170)

`split_pdf` begins with three `assert` statements — source exists, suffix
is `.pdf`, `0 < split_size ≤ 2` — all of which run before the output
directory is created and before any part file is written.  The error kinds
follow the spec's taxonomy: missing source ↦ NotFound; wrong source type or
bad split size ↦ InvalidInput. -/

/-- Classification of a failed `split_pdf` guard. -/
inductive SplitErrorKind where
  | notFound
  | invalidInput
deriving DecidableEq, Repr

/-- Guard structure of `split_pdf`: the three checks in source order, then
the part list.  An error return means no part artifact was written (the `ok`
list is exactly the artifacts written). -/
def split_pdf_checked (input_exists : Bool) (suffix : String)
    (total_pages split_size : ℕ) : Except SplitErrorKind (List Document) :=
  if ¬ input_exists then .error .notFound
  else if ¬ (suffix = ".pdf") then .error .invalidInput
  else if ¬ (0 < split_size ∧ split_size ≤ 2) then .error .invalidInput
  else .ok (split_pdf_parts total_pages split_size)

/-! ## Crop bounds (`agentic_doc/utils.py`, `_crop_image`) -/

/-- Pixel bounds of a crop: the Python slice `image[ymin:ymax, xmin:xmax]`
is determined by these four integers. -/
structure CropBounds where
  xmin : ℤ
  ymin : ℤ
  xmax : ℤ
  ymax : ℤ
deriving DecidableEq, Repr

/-- From `_crop_image`: floor/ceil the normalized coordinates times the
raster size, then clamp the lower bounds to `0` and the upper bounds to the
raster size.  (`image.shape[:2]` is `(height, width)`; the box coordinates
are `xmin, ymin, xmax, ymax = bbox.l, bbox.t, bbox.r, bbox.b`.) -/
def crop_image_bounds (width height : ℕ) (bbox : ChunkGroundingBox) : CropBounds :=
  let xmin := Int.floor (bbox.l * width)
  let xmax := Int.ceil (bbox.r * width)
  let ymin := Int.floor (bbox.t * height)
  let ymax := Int.ceil (bbox.b * height)
  { xmin := max 0 xmin,
    ymin := max 0 ymin,
    xmax := min (width : ℤ) xmax,
    ymax := min (height : ℤ) ymax }

/-! ## Settings (`agentic_doc/config.py`)

Only the keys involved in the parallel-task ceiling are carried in the
state: `batch_size` and `max_workers`, each with a user-set layer and an
environment layer (defaults 4 and 5).  Both keys have the validation rule
`{"type": int, "min": 1}`.  A present environment value is validated on
every read, as in `Settings._get_value`; user-set values were validated
when stored.  The `retry_logging_style` branch of
`_run_validation_checks` only adjusts the `httpx` log level and cannot
raise for the valid styles, so it has no effect on the modelled state. -/

/-- Ceiling on `batch_size * max_workers` (`_MAX_PARALLEL_TASKS = 200`). -/
def MAX_PARALLEL_TASKS : ℤ := 200

/-- Mutable state of the `Settings` object. -/
structure SettingsState where
  user_batch_size : Option ℤ
  user_max_workers : Option ℤ
  env_batch_size : Option ℤ
  env_max_workers : Option ℤ
deriving DecidableEq, Repr

/-- The fresh `Settings()` state: nothing user-set, empty environment. -/
def initialSettings : SettingsState :=
  { user_batch_size := none, user_max_workers := none,
    env_batch_size := none, env_max_workers := none }

/-- `Settings._validate_value` for an integer key with a `min` rule. -/
def validate_int_min (key : String) (minv v : ℤ) : Except String ℤ :=
  if v < minv then
    .error ("Invalid value for " ++ key ++ ": must be >= " ++ toString minv)
  else .ok v

/-- `Settings._get_value "batch_size"`: user-set value first, then the
(validated) environment value, then the default `4`. -/
def get_batch_size (s : SettingsState) : Except String ℤ :=
  match s.user_batch_size with
  | some v => .ok v
  | none =>
    match s.env_batch_size with
    | some e => validate_int_min ("batch_size") 1 e
    | none => .ok 4

/-- `Settings._get_value "max_workers"`: user-set value first, then the
(validated) environment value, then the default `5`. -/
def get_max_workers (s : SettingsState) : Except String ℤ :=
  match s.user_max_workers with
  | some v => .ok v
  | none =>
    match s.env_max_workers with
    | some e => validate_int_min ("max_workers") 1 e
    | none => .ok 5

/-- `Settings._run_validation_checks`: reads `va_batch_size` and
`va_max_workers` and raises when their product exceeds
`_MAX_PARALLEL_TASKS`. -/
def run_validation_checks (s : SettingsState) : Except String Unit :=
  match get_batch_size s with
  | .error e => .error e
  | .ok b =>
    match get_max_workers s with
    | .error e => .error e
    | .ok w =>
      if b * w > MAX_PARALLEL_TASKS then
        .error ("Batch size * max workers must be less than 200.")
      else
        .ok ()

/-- `Settings._set_value "batch_size"`: validate, store into
`_user_values`, then run the cross-field validation checks.  The Python
method mutates `self._user_values` *before* `_run_validation_checks` can
raise, so the post-state is returned together with the raised error (if
any): on a check failure the state keeps the new value. -/
def set_batch_size (s : SettingsState) (v : ℤ) : SettingsState × Option String :=
  match validate_int_min ("batch_size") 1 v with
  | .error e => (s, some e)
  | .ok vv =>
    let s2 := { s with user_batch_size := some vv }
    match run_validation_checks s2 with
    | .error e => (s2, some e)
    | .ok _ => (s2, none)

/-- `Settings._set_value "max_workers"`, with the same
mutate-before-validate behaviour as `set_batch_size`. -/
def set_max_workers (s : SettingsState) (v : ℤ) : SettingsState × Option String :=
  match validate_int_min ("max_workers") 1 v with
  | .error e => (s, some e)
  | .ok vv =>
    let s2 := { s with user_max_workers := some vv }
    match run_validation_checks s2 with
    | .error e => (s2, some e)
    | .ok _ => (s2, none)

/-! ## Merger

Modelled from the spec: `agentic_doc/parse.py` (which defines
`_merge_part_results` and `_merge_next_part`) is not among the provided
sources; the definitions below follow spec §4.5 — (a) append the next
part's markdown after a blank line, (b) offset every grounding page index
of the next part's chunks by the accumulator's trailing page count
(`end_page_idx + 1`), (c) append its chunks, (d) extend the end-page index
to the next part's — matching the unit tests
`test_merge_part_results_*` and `test_merge_next_part`. -/

/-- Page count of a part result (inclusive page range). -/
def pageCount (d : ParsedDocument) : ℕ :=
  d.end_page_idx + 1 - d.start_page_idx

/-- Shift every grounding page index of a chunk by `off`. -/
def offsetChunk (off : ℕ) (c : Chunk) : Chunk :=
  { c with grounding := c.grounding.map (fun g => { g with page := g.page + off }) }

/-- Modelled from the spec: `_merge_next_part` (absent `agentic_doc/parse.py`)
merges the next part result into the accumulator. -/
def merge_next_part (cur nxt : ParsedDocument) : ParsedDocument :=
  { markdown := cur.markdown ++ "\n\n" ++ nxt.markdown,
    chunks := cur.chunks ++ nxt.chunks.map (offsetChunk (cur.end_page_idx + 1)),
    start_page_idx := cur.start_page_idx,
    end_page_idx := nxt.end_page_idx,
    doc_type := cur.doc_type }

/-- Modelled from the spec: `_merge_part_results` (absent
`agentic_doc/parse.py`) folds the per-part results left to right from the
first part; an empty input yields an empty result with page range
`[0, 0]`. -/
def merge_part_results (results : List ParsedDocument) : ParsedDocument :=
  match results with
  | [] =>
    { markdown := "", chunks := [], start_page_idx := 0, end_page_idx := 0,
      doc_type := "pdf" }
  | d :: ds => ds.foldl merge_next_part d

/-- Expected merged markdown: the parts' markdowns separated by blank
lines (spec §4.5 (a)). -/
def expectedMergedMarkdown : List ParsedDocument → String
  | [] => ""
  | [d] => d.markdown
  | d :: ds => d.markdown ++ "\n\n" ++ expectedMergedMarkdown ds

/-- Expected merged chunk list: part `k`'s chunks offset by the sum of the
page counts of parts `0..k-1` (spec §4.5 (b)-(c)); `off` carries that
running sum. -/
def expectedMergedChunks (off : ℕ) : List ParsedDocument → List Chunk
  | [] => []
  | d :: ds => d.chunks.map (offsetChunk off) ++ expectedMergedChunks (off + pageCount d) ds

/-! ## Request client and per-part parsing

Modelled from the spec: `_send_parsing_request` and `_parse_doc_parts` live
in the absent `agentic_doc/parse.py`; the definitions follow spec §4.2 and
§7 and the unit tests `test_send_parsing_request_*` and
`test_parse_doc_parts_*`. -/

/-- The endpoint's parsed success payload (`response.json()["data"]`). -/
structure ParsePayload where
  markdown : String
  chunks : List Chunk
deriving DecidableEq, Repr

/-- A raw endpoint interaction: either the transport failed outright, or an
HTTP response with a status code and body arrived (carrying the parsed
payload for when the status is a success). -/
inductive EndpointResponse where
  | transportFailure (detail : String)
  | http (status : ℕ) (body : String) (payload : ParsePayload)
deriving DecidableEq, Repr

/-- Classified outcome of one request. `retryableError` carries the
response (status and body) for diagnostics, and stringifies as
`"<status> - <body>"`. -/
inductive SendOutcome where
  | success (payload : ParsePayload)
  | retryableError (status : ℕ) (body : String)
  | terminalError (detail : String)
deriving DecidableEq, Repr

/-- HTTP statuses the client retries on: 429 rate limiting plus the 5xx
overload/timeout family.  Modelled from the spec ("429, and 5xx codes
reflecting overload/timeout"). -/
def RETRYABLE_STATUSES : List ℕ := [429, 502, 503, 504]

/-- Modelled from the spec: `_send_parsing_request` (absent
`agentic_doc/parse.py`) classifies the endpoint interaction: retryable
status ↦ `RetryableError` carrying the response; other non-2xx status or
transport failure ↦ terminal error; 2xx ↦ the parsed payload. -/
def send_parsing_request (resp : EndpointResponse) : SendOutcome :=
  match resp with
  | .transportFailure detail => .terminalError detail
  | .http status body payload =>
    if status ∈ RETRYABLE_STATUSES then
      .retryableError status body
    else if 200 ≤ status ∧ status < 300 then
      .success payload
    else
      .terminalError (toString status ++ " - " ++ body)

/-- Stringification of a `RetryableError` (`"<status> - <body>"`, as
asserted by `test_send_parsing_request_retryable_error`). -/
def retryableErrorMessage (status : ℕ) (body : String) : String :=
  toString status ++ " - " ++ body

/-- One error chunk: the underlying error's message as its text and a
single grounding on the given page with no bounding box. -/
def errorChunk (msg : String) (page : ℕ) : Chunk :=
  { text := msg, chunk_type := ChunkType.error, chunk_id := "error",
    grounding := [{ page := page, box := none }] }

/-- Modelled from the spec: `_parse_doc_parts` (absent
`agentic_doc/parse.py`) parses one part.  A successful request becomes a
`ParsedDocument` over the part's page range; a terminal failure is caught
and converted into one error chunk per page of the part's range, so the
call returns normally either way. -/
def parse_doc_parts (doc : Document) (outcome : Except String ParsePayload) :
    ParsedDocument :=
  match outcome with
  | .ok payload =>
    { markdown := payload.markdown, chunks := payload.chunks,
      start_page_idx := doc.start_page_idx, end_page_idx := doc.end_page_idx,
      doc_type := "pdf" }
  | .error msg =>
    { markdown := "",
      chunks := (Document.pages doc).map (errorChunk msg),
      start_page_idx := doc.start_page_idx, end_page_idx := doc.end_page_idx,
      doc_type := "pdf" }

/-! ## Retry policy (`agentic_doc/utils.py`, `log_retry_failure`, plus the
retry wrapper modelled from the spec) -/

/-- One diagnostic event emitted while retrying. -/
inductive RetryDiag where
  | debugLog (func_name : String) (attempt : ℕ) (error_msg : String)
  | progressBlock (attempt : ℕ)
deriving DecidableEq, Repr

/-- From `log_retry_failure`: on a failed attempt emit diagnostics
according to `settings.retry_logging_style` — a debug log line for
`"log_msg"`, a progress block for `"inline_block"`, nothing for `"none"` —
and raise `ValueError` for any other style.  The emitted events are
returned as data (the logger/`print` calls have no other effect). -/
def log_retry_failure (style func_name : String) (attempt : ℕ)
    (outcome_failed : Bool) (error_msg : String) : Except String (List RetryDiag) :=
  if outcome_failed then
    if style = "log_msg" then .ok [.debugLog func_name attempt error_msg]
    else if style = "inline_block" then .ok [.progressBlock attempt]
    else if style = "none" then .ok []
    else .error ("Invalid retry logging style: " ++ style)
  else .ok []

/-- The three admissible retry-logging styles (the `Literal` type of
`Settings.retry_logging_style`). -/
def validRetryStyle (style : String) : Prop :=
  style = "none" ∨ style = "log_msg" ∨ style = "inline_block"

instance (style : String) : Decidable (validRetryStyle style) := by
  unfold validRetryStyle; infer_instance

/-- Outcome of one attempt against the endpoint, as seen by the retry
wrapper. -/
inductive AttemptOutcome where
  | success (payload : ParsePayload)
  | retryable (msg : String)
  | terminal (msg : String)
deriving DecidableEq, Repr

/-- Observable trace of one run of the retry wrapper: final result, number
of attempts made, backoff waits applied between attempts, and diagnostics
emitted. -/
structure RetryTrace where
  result : Except String ParsePayload
  attempts : ℕ
  waits : List ℕ
  diags : List RetryDiag
deriving Repr

/-- Exponential backoff wait before the retry following `attempt`, capped
at `max_wait` (jitter abstracted away). -/
def retryWait (max_wait attempt : ℕ) : ℕ :=
  min (2 ^ attempt) max_wait

/-- Modelled from the spec: the Retry Policy wrapper (the `tenacity`
decorator configured in the absent `agentic_doc/parse.py`).  Attempt
numbers start at 1; a retryable failure is reported through
`log_retry_failure` and retried after `retryWait` until the attempt budget
is exhausted; a terminal failure or a success ends the run at once.  An
error raised by the logging callback itself would propagate. -/
def retryRun (style func_name : String) (outcomes : ℕ → AttemptOutcome)
    (max_wait : ℕ) : ℕ → ℕ → RetryTrace
  | 0, _ => { result := .error "no attempts permitted", attempts := 0, waits := [], diags := [] }
  | remaining + 1, attempt =>
    match outcomes attempt with
    | .success p => { result := .ok p, attempts := 1, waits := [], diags := [] }
    | .terminal m => { result := .error m, attempts := 1, waits := [], diags := [] }
    | .retryable m =>
      match log_retry_failure style func_name attempt true m with
      | .error e => { result := .error e, attempts := 1, waits := [], diags := [] }
      | .ok ds =>
        if remaining = 0 then
          { result := .error m, attempts := 1, waits := [], diags := ds }
        else
          let t := retryRun style func_name outcomes max_wait remaining (attempt + 1)
          { result := t.result, attempts := t.attempts + 1,
            waits := retryWait max_wait attempt :: t.waits, diags := ds ++ t.diags }

/-- Modelled from the spec: a full retry-policy run with
`max_retries` attempts allowed, starting at attempt 1. -/
def retry_policy_run (style func_name : String) (outcomes : ℕ → AttemptOutcome)
    (max_retries max_wait : ℕ) : RetryTrace :=
  retryRun style func_name outcomes max_wait max_retries 1

/-! ## Grounding materializer (`agentic_doc/utils.py`,
`save_groundings_as_images` PDF branch and `_crop_groundings`)

`save_groundings_as_images` groups whole non-error chunks by
`chunk.grounding[0].page`, renders each group key page once
(`page_to_image(pdf_doc, page_idx)`) in ascending page order, and crops
*all* groundings of the group's chunks from that single raster.  Each crop
is recorded below with both the page whose raster was rendered for it and
the page index stored in the grounding (which also keys the save path
`page_{grounding.page}/{chunk_id}_{i}.png`). -/

/-- One produced crop: which chunk and grounding it came from, which page
raster it was cropped out of, and the grounding's own page index. -/
structure CropRecord where
  chunk_id : String
  grounding_idx : ℕ
  rendered_page : ℕ
  grounding_page : ℕ
deriving DecidableEq, Repr

/-- From `chunk.grounding[0].page`: the page under which
`save_groundings_as_images` groups a whole chunk. -/
def firstGroundingPage (c : Chunk) : ℕ :=
  (c.grounding.headD { page := 0, box := none }).page

/-- From `_crop_groundings`: for one chunk, one crop per grounding carrying
a bounding box (groundings without a box are skipped), cropped from the
raster `img_page` that was passed in; error chunks are skipped. -/
def cropGroundings (img_page : ℕ) (c : Chunk) : List CropRecord :=
  if c.chunk_type = ChunkType.error then []
  else
    c.grounding.enum.filterMap (fun ig =>
      match ig.2.box with
      | none => none
      | some _ =>
        some { chunk_id := c.chunk_id, grounding_idx := ig.1,
               rendered_page := img_page, grounding_page := ig.2.page })

/-- From `save_groundings_as_images` (PDF branch): group the non-error
chunks by their first grounding's page, process the pages in ascending
order, and crop each group's chunks from the group page's raster. -/
def save_groundings_as_images_pdf (chunks : List Chunk) : List CropRecord :=
  let nonError := chunks.filter (fun c => decide (¬ c.chunk_type = ChunkType.error))
  let pages := ((nonError.map firstGroundingPage).dedup).insertionSort (· ≤ ·)
  (pages.map (fun p =>
    ((nonError.filter (fun c => decide (firstGroundingPage c = p))).map
      (cropGroundings p)).flatten)).flatten

/-- Joining the page ranges of the parts emitted by `splitLoop` from `start`
onwards yields exactly the pages `start, start+1, …, total-1`, provided the
fuel suffices and the split size is positive. -/
theorem splitLoop_join_pages (total s : ℕ) (hs : 0 < s) :
    ∀ fuel start, total ≤ start + fuel →
      ((splitLoop total s fuel start).map Document.pages).flatten
        = List.range' start (total - start) := by
  intro fuel
  induction fuel with
  | zero =>
    intro start h
    have : total - start = 0 := by omega
    simp [splitLoop, this]
  | succ n ih =>
    intro start h
    by_cases hlt : start < total
    · have hjoin := ih (start + s) (by omega)
      simp only [splitLoop, hlt, if_true, List.map_cons, List.flatten_cons, hjoin,
        Document.pages]
      have hlen : min (start + s - 1) (total - 1) + 1 - start
          = min (start + s) total - start := by omega
      rw [hlen]
      rcases le_or_lt (start + s) total with hle | hgt
      · have h1 : min (start + s) total - start = s := by omega
        have h2 : total - (start + s) = (total - start) - s := by omega
        rw [h1, h2]
        have happ := List.range'_append start s ((total - start) - s) 1
        rw [one_mul] at happ
        rw [happ]
        congr 1
        omega
      · have h1 : min (start + s) total - start = total - start := by omega
        have h2 : total - (start + s) = 0 := by omega
        rw [h1, h2]
        simp
    · have : total - start = 0 := by omega
      simp [splitLoop, hlt, this]

/-- The number of parts emitted by `splitLoop` from `start` onwards is
`⌈(total - start) / s⌉ = (total - start + s - 1) / s`, provided the fuel
suffices and the split size is positive. -/
theorem splitLoop_length (total s : ℕ) (hs : 0 < s) :
    ∀ fuel start, total ≤ start + fuel →
      (splitLoop total s fuel start).length = (total - start + s - 1) / s := by
  intro fuel
  induction fuel with
  | zero =>
    intro start h
    have h0 : total - start = 0 := by omega
    simp [splitLoop, h0, Nat.div_eq_of_lt (by omega : s - 1 < s)]
  | succ n ih =>
    intro start h
    by_cases hlt : start < total
    · simp only [splitLoop, hlt, if_true, List.length_cons, ih (start + s) (by omega)]
      have h1 : total - start + s - 1 = (total - start - 1) + s := by omega
      rw [h1, Nat.add_div_right _ hs]
      rcases le_or_lt s (total - start) with hle | hgt
      · have h2 : total - (start + s) + s - 1 = total - start - 1 := by omega
        rw [h2]
      · have h2 : total - (start + s) + s - 1 = s - 1 := by omega
        rw [h2, Nat.div_eq_of_lt (by omega), Nat.div_eq_of_lt (by omega)]
    · have h0 : total - start = 0 := by omega
      simp [splitLoop, hlt, h0, Nat.div_eq_of_lt (by omega : s - 1 < s)]

/-- Once `start` has reached `total`, the split loop emits nothing. -/
theorem splitLoop_nil (total s fuel start : ℕ) (h : ¬ start < total) :
    splitLoop total s fuel start = [] := by
  cases fuel <;> simp [splitLoop, h]

/-- Every part emitted by `splitLoop` has a well-formed page range spanning
at most `s` pages. -/
theorem splitLoop_span (total s : ℕ) (hs : 0 < s) :
    ∀ fuel start, start < total →
      ∀ p ∈ splitLoop total s fuel start,
        p.start_page_idx ≤ p.end_page_idx
          ∧ p.end_page_idx + 1 - p.start_page_idx ≤ s := by
  intro fuel
  induction fuel with
  | zero => intro start _ p hp; simp [splitLoop] at hp
  | succ n ih =>
    intro start hstart p hp
    simp only [splitLoop, hstart, if_true, List.mem_cons] at hp
    rcases hp with rfl | hp
    · refine ⟨?_, ?_⟩ <;> · dsimp only; omega
    · by_cases h2 : start + s < total
      · exact ih (start + s) h2 p hp
      · rw [splitLoop_nil total s n (start + s) h2] at hp
        simp at hp


/-- C1: for every PDF with `N ≥ 1` pages and every split size `0 < s ≤ 2`,
`split_pdf` returns `⌈N/s⌉` parts whose page ranges are consecutive,
non-overlapping and together cover exactly `[0, N-1]` in order (their
concatenated page lists equal `[0, …, N-1]`), each part spanning at most
`s` pages; in particular a 5-page document with split size 2 yields parts
covering `[0,1]`, `[2,3]`, `[4,4]`. -/
theorem split_pdf_correct (N s : ℕ) (hN : 1 ≤ N) (hs : 0 < s) (hs2 : s ≤ 2) :
    (split_pdf_parts N s).length = (N + s - 1) / s
      ∧ ((split_pdf_parts N s).map Document.pages).flatten = List.range N
      ∧ (∀ p ∈ split_pdf_parts N s,
          p.start_page_idx ≤ p.end_page_idx
            ∧ p.end_page_idx + 1 - p.start_page_idx ≤ s)
      ∧ (split_pdf_parts 5 2).map (fun p => (p.start_page_idx, p.end_page_idx))
          = [(0, 1), (2, 3), (4, 4)] := by
  refine ⟨?_, ?_, ?_, by decide⟩
  · have h := splitLoop_length N s hs N 0 (by omega)
    simpa using h
  · have h := splitLoop_join_pages N s hs N 0 (by omega)
    rw [List.range_eq_range']
    simpa using h
  · intro p hp
    exact splitLoop_span N s hs N 0 (by omega) p hp

/-- C1 witness: the theorem applied to the concrete 5-page, split-size-2
document. -/
theorem split_pdf_correct_witness :
    (1 ≤ 5 ∧ 0 < 2 ∧ 2 ≤ 2)
      ∧ ((split_pdf_parts 5 2).length = (5 + 2 - 1) / 2
        ∧ ((split_pdf_parts 5 2).map Document.pages).flatten = List.range 5
        ∧ (∀ p ∈ split_pdf_parts 5 2,
            p.start_page_idx ≤ p.end_page_idx
              ∧ p.end_page_idx + 1 - p.start_page_idx ≤ 2)
        ∧ (split_pdf_parts 5 2).map (fun p => (p.start_page_idx, p.end_page_idx))
            = [(0, 1), (2, 3), (4, 4)]) :=
  ⟨⟨by decide, by decide, by decide⟩,
    split_pdf_correct 5 2 (by decide) (by decide) (by decide)⟩

/-- C6: for every normalized bounding box with coordinates in `[0,1]` (the
range `_crop_image` asserts) and every raster of width `w` and height `h`,
the crop step computes `xmin = ⌊l·w⌋`, `xmax = ⌈r·w⌉`, `ymin = ⌊t·h⌋`,
`ymax = ⌈b·h⌉` — with the clamps to `[0, w]` and `[0, h]` applied, which
leave these values unchanged for in-range coordinates — and the resulting
pixel bounds lie within the raster; in particular the box
`{l: 0.1, t: 0.1, r: 0.5, b: 0.5}` on a 1000×800 raster crops the pixel
region `x ∈ [100, 500]`, `y ∈ [80, 400]`. -/
theorem crop_image_correct (w h : ℕ) (bbox : ChunkGroundingBox)
    (hl : 0 ≤ bbox.l ∧ bbox.l ≤ 1) (ht : 0 ≤ bbox.t ∧ bbox.t ≤ 1)
    (hr : 0 ≤ bbox.r ∧ bbox.r ≤ 1) (hb : 0 ≤ bbox.b ∧ bbox.b ≤ 1) :
    (crop_image_bounds w h bbox).xmin = Int.floor (bbox.l * w)
      ∧ (crop_image_bounds w h bbox).xmax = Int.ceil (bbox.r * w)
      ∧ (crop_image_bounds w h bbox).ymin = Int.floor (bbox.t * h)
      ∧ (crop_image_bounds w h bbox).ymax = Int.ceil (bbox.b * h)
      ∧ 0 ≤ (crop_image_bounds w h bbox).xmin
      ∧ (crop_image_bounds w h bbox).xmax ≤ (w : ℤ)
      ∧ 0 ≤ (crop_image_bounds w h bbox).ymin
      ∧ (crop_image_bounds w h bbox).ymax ≤ (h : ℤ)
      ∧ crop_image_bounds 1000 800 { l := 1/10, t := 1/10, r := 1/2, b := 1/2 }
          = { xmin := 100, ymin := 80, xmax := 500, ymax := 400 } := by
  have hxmin : (0 : ℤ) ≤ Int.floor (bbox.l * (w : ℚ)) :=
    Int.floor_nonneg.mpr (mul_nonneg hl.1 (by positivity))
  have hymin : (0 : ℤ) ≤ Int.floor (bbox.t * (h : ℚ)) :=
    Int.floor_nonneg.mpr (mul_nonneg ht.1 (by positivity))
  have hxmax : Int.ceil (bbox.r * (w : ℚ)) ≤ (w : ℤ) := by
    rw [Int.ceil_le]
    push_cast
    exact mul_le_of_le_one_left (by positivity) hr.2
  have hymax : Int.ceil (bbox.b * (h : ℚ)) ≤ (h : ℤ) := by
    rw [Int.ceil_le]
    push_cast
    exact mul_le_of_le_one_left (by positivity) hb.2
  refine ⟨?_, ?_, ?_, ?_, ?_, ?_, ?_, ?_, ?_⟩
  · simpa [crop_image_bounds] using max_eq_right hxmin
  · simpa [crop_image_bounds] using min_eq_right hxmax
  · simpa [crop_image_bounds] using max_eq_right hymin
  · simpa [crop_image_bounds] using min_eq_right hymax
  · simpa [crop_image_bounds] using le_max_left 0 (Int.floor (bbox.l * (w : ℚ)))
  · simpa [crop_image_bounds] using min_le_left ((w : ℤ)) (Int.ceil (bbox.r * (w : ℚ)))
  · simpa [crop_image_bounds] using le_max_left 0 (Int.floor (bbox.t * (h : ℚ)))
  · simpa [crop_image_bounds] using min_le_left ((h : ℤ)) (Int.ceil (bbox.b * (h : ℚ)))
  · simp only [crop_image_bounds, CropBounds.mk.injEq]
    norm_num

/-- C6 witness: the theorem applied to the full-raster box `{0,0,1,1}` on a
10×5 raster. -/
theorem crop_image_correct_witness :
    ((0:ℚ) ≤ 0 ∧ (0:ℚ) ≤ 1 ∧ (1:ℚ) ≤ 1)
      ∧ ((crop_image_bounds 10 5 { l := 0, t := 0, r := 1, b := 1 }).xmin
            = Int.floor ((0 : ℚ) * (10 : ℕ))
        ∧ (crop_image_bounds 10 5 { l := 0, t := 0, r := 1, b := 1 }).xmax
            = Int.ceil ((1 : ℚ) * (10 : ℕ))
        ∧ (crop_image_bounds 10 5 { l := 0, t := 0, r := 1, b := 1 }).ymin
            = Int.floor ((0 : ℚ) * (5 : ℕ))
        ∧ (crop_image_bounds 10 5 { l := 0, t := 0, r := 1, b := 1 }).ymax
            = Int.ceil ((1 : ℚ) * (5 : ℕ))
        ∧ 0 ≤ (crop_image_bounds 10 5 { l := 0, t := 0, r := 1, b := 1 }).xmin
        ∧ (crop_image_bounds 10 5 { l := 0, t := 0, r := 1, b := 1 }).xmax ≤ ((10:ℕ) : ℤ)
        ∧ 0 ≤ (crop_image_bounds 10 5 { l := 0, t := 0, r := 1, b := 1 }).ymin
        ∧ (crop_image_bounds 10 5 { l := 0, t := 0, r := 1, b := 1 }).ymax ≤ ((5:ℕ) : ℤ)
        ∧ crop_image_bounds 1000 800 { l := 1/10, t := 1/10, r := 1/2, b := 1/2 }
            = { xmin := 100, ymin := 80, xmax := 500, ymax := 400 }) :=
  ⟨⟨le_refl 0, zero_le_one, le_refl 1⟩,
    crop_image_correct 10 5 { l := 0, t := 0, r := 1, b := 1 }
      ⟨le_refl 0, zero_le_one⟩ ⟨le_refl 0, zero_le_one⟩
      ⟨zero_le_one, le_refl 1⟩ ⟨zero_le_one, le_refl 1⟩⟩

/-- C8: the Splitter fails with a NotFound kind when the source path does
not exist, and with an InvalidInput kind when the source is not a PDF or
the split size is outside `(0, 2]`; a part list (the written artifacts) is
produced exactly when all guards pass, so on failure nothing has been
written. -/
theorem split_pdf_guards (ex : Bool) (suffix : String) (N sz : ℕ) :
    (ex = false → split_pdf_checked ex suffix N sz = .error .notFound)
      ∧ (ex = true → ¬ suffix = ".pdf" →
          split_pdf_checked ex suffix N sz = .error .invalidInput)
      ∧ (ex = true → suffix = ".pdf" → ¬ (0 < sz ∧ sz ≤ 2) →
          split_pdf_checked ex suffix N sz = .error .invalidInput)
      ∧ ((∃ parts, split_pdf_checked ex suffix N sz = .ok parts)
          ↔ (ex = true ∧ suffix = ".pdf" ∧ 0 < sz ∧ sz ≤ 2)) := by
  refine ⟨?_, ?_, ?_, ?_⟩
  · intro hex
    simp [split_pdf_checked, hex]
  · intro hex hsuf
    simp [split_pdf_checked, hex, hsuf]
  · intro hex hsuf hsz
    simp [split_pdf_checked, hex, hsuf, hsz]
  · constructor
    · rintro ⟨parts, hparts⟩
      by_cases hex : ex
      · by_cases hsuf : suffix = ".pdf"
        · by_cases hsz : 0 < sz ∧ sz ≤ 2
          · exact ⟨hex, hsuf, hsz⟩
          · simp [split_pdf_checked, hex, hsuf, hsz] at hparts
        · simp [split_pdf_checked, hex, hsuf] at hparts
      · simp [split_pdf_checked, hex] at hparts
    · rintro ⟨hex, hsuf, hsz⟩
      exact ⟨split_pdf_parts N sz, by simp [split_pdf_checked, hex, hsuf, hsz]⟩

/-- C8 witness: the three failure guards at concrete inputs. -/
theorem split_pdf_guards_witness :
    split_pdf_checked false ".pdf" 5 2 = .error .notFound
      ∧ split_pdf_checked true ".txt" 5 2 = .error .invalidInput
      ∧ split_pdf_checked true ".pdf" 5 3 = .error .invalidInput :=
  ⟨(split_pdf_guards false ".pdf" 5 2).1 rfl,
    (split_pdf_guards true ".txt" 5 2).2.1 rfl (by decide),
    (split_pdf_guards true ".pdf" 5 3).2.2.1 rfl rfl (by decide)⟩

/-- C3: for every settings state and every batch size `C` and worker count
`W` supplied through the setters, if `C × W` exceeds the 200-task ceiling
then one of the two setter calls raises (so the configuration fails at
configuration time, before any request could be dispatched). -/
theorem settings_parallelism_ceiling (s : SettingsState) (C W : ℤ)
    (h : C * W > MAX_PARALLEL_TASKS) :
    (set_batch_size s C).2.isSome = true
      ∨ (set_max_workers (set_batch_size s C).1 W).2.isSome = true := by
  by_cases hC : C < 1
  · left
    simp [set_batch_size, validate_int_min, hC]
  · cases hrv : run_validation_checks { s with user_batch_size := some C } with
    | error e =>
      left
      simp [set_batch_size, validate_int_min, hC, hrv]
    | ok u =>
      right
      have h1 : (set_batch_size s C).1 = { s with user_batch_size := some C } := by
        simp [set_batch_size, validate_int_min, hC, hrv]
      rw [h1]
      by_cases hW : W < 1
      · simp [set_max_workers, validate_int_min, hW]
      · have hrun : run_validation_checks
            { user_batch_size := some C, user_max_workers := some W,
              env_batch_size := s.env_batch_size,
              env_max_workers := s.env_max_workers } = .error
            ("Batch size * max workers must be less than 200.") := by
          have h2 : (200 : ℤ) < C * W := by rw [MAX_PARALLEL_TASKS] at h; exact h
          simp [run_validation_checks, get_batch_size, get_max_workers,
            MAX_PARALLEL_TASKS, h2]
        simp [set_max_workers, validate_int_min, hW, hrun]

/-- C3 witness: from the fresh settings state, requesting `batch_size =
100` and `max_workers = 5` (product 500 > 200) raises. -/
theorem settings_parallelism_ceiling_witness :
    (100 * 5 : ℤ) > MAX_PARALLEL_TASKS
      ∧ ((set_batch_size initialSettings 100).2.isSome = true
        ∨ (set_max_workers (set_batch_size initialSettings 100).1 5).2.isSome = true) :=
  ⟨by decide, settings_parallelism_ceiling initialSettings 100 5 (by decide)⟩

/-- C10 (implicit): when a setter raises because `_run_validation_checks`
fails, the value had already been stored in `_user_values`, so a subsequent
read of the property returns the rejected value rather than the previous
one — the setter is not atomic on error.  (The value itself passed its own
`min`-validation, i.e. `1 ≤ v`, which is the only way to reach the product
check.) -/
theorem settings_setter_stores_rejected_value (s : SettingsState) (v : ℤ)
    (hv : 1 ≤ v) :
    ((set_batch_size s v).2.isSome = true →
        (set_batch_size s v).1.user_batch_size = some v
          ∧ get_batch_size (set_batch_size s v).1 = .ok v)
      ∧ ((set_max_workers s v).2.isSome = true →
        (set_max_workers s v).1.user_max_workers = some v
          ∧ get_max_workers (set_max_workers s v).1 = .ok v) := by
  have hv2 : ¬ v < 1 := by omega
  constructor
  · intro _
    cases hrv : run_validation_checks { s with user_batch_size := some v } with
    | error e =>
      constructor
      · simp [set_batch_size, validate_int_min, hv2, hrv]
      · simp [set_batch_size, validate_int_min, hv2, hrv, get_batch_size]
    | ok u =>
      constructor
      · simp [set_batch_size, validate_int_min, hv2, hrv]
      · simp [set_batch_size, validate_int_min, hv2, hrv, get_batch_size]
  · intro _
    cases hrv : run_validation_checks { s with user_max_workers := some v } with
    | error e =>
      constructor
      · simp [set_max_workers, validate_int_min, hv2, hrv]
      · simp [set_max_workers, validate_int_min, hv2, hrv, get_max_workers]
    | ok u =>
      constructor
      · simp [set_max_workers, validate_int_min, hv2, hrv]
      · simp [set_max_workers, validate_int_min, hv2, hrv, get_max_workers]

/-- C10 witness: setting `batch_size = 100` on the fresh state raises (100
× default 5 workers = 500 > 200) yet the stored and read-back batch size is
100. -/
theorem settings_setter_stores_rejected_value_witness :
    (1 : ℤ) ≤ 100
      ∧ (((set_batch_size initialSettings 100).2.isSome = true →
          (set_batch_size initialSettings 100).1.user_batch_size = some 100
            ∧ get_batch_size (set_batch_size initialSettings 100).1 = .ok 100)
        ∧ ((set_max_workers initialSettings 100).2.isSome = true →
          (set_max_workers initialSettings 100).1.user_max_workers = some 100
            ∧ get_max_workers (set_max_workers initialSettings 100).1 = .ok 100)) :=
  ⟨by decide, settings_setter_stores_rejected_value initialSettings 100 (by decide)⟩

/-- Offsetting a chunk's grounding pages by 0 changes nothing. -/
theorem offsetChunk_zero (c : Chunk) : offsetChunk 0 c = c := by
  simp [offsetChunk]

/-- Mapping the zero offset over a chunk list changes nothing. -/
theorem map_offsetChunk_zero (l : List Chunk) : l.map (offsetChunk 0) = l := by
  induction l with
  | nil => rfl
  | cons c t ih => rw [List.map_cons, offsetChunk_zero, ih]

/-- Invariant of the Merger's fold: starting from accumulator `acc`, if the
remaining parts are consecutive after `acc` and well-formed, the fold
produces the blank-line-joined markdown, the chunks of each part offset by
the running page count (seeded at `acc`'s trailing page count), the last
part's end page, and `acc`'s start page and document type. -/
theorem foldl_merge_spec (ds : List ParsedDocument) :
    ∀ acc : ParsedDocument,
      List.Chain (fun a b => b.start_page_idx = a.end_page_idx + 1) acc ds →
      (∀ d ∈ ds, d.start_page_idx ≤ d.end_page_idx) →
      (ds.foldl merge_next_part acc).markdown = expectedMergedMarkdown (acc :: ds)
        ∧ (ds.foldl merge_next_part acc).chunks
            = acc.chunks ++ expectedMergedChunks (acc.end_page_idx + 1) ds
        ∧ (ds.foldl merge_next_part acc).end_page_idx = (ds.getLastD acc).end_page_idx
        ∧ (ds.foldl merge_next_part acc).start_page_idx = acc.start_page_idx
        ∧ (ds.foldl merge_next_part acc).doc_type = acc.doc_type := by
  induction ds with
  | nil =>
    intro acc _ _
    exact ⟨rfl, by simp [expectedMergedChunks], rfl, rfl, rfl⟩
  | cons d ds ih =>
    intro acc hchain hwf
    rw [List.chain_cons] at hchain
    obtain ⟨had, hchain2⟩ := hchain
    have hwfd : d.start_page_idx ≤ d.end_page_idx := hwf d (by simp)
    have hwf2 : ∀ x ∈ ds, x.start_page_idx ≤ x.end_page_idx :=
      fun x hx => hwf x (by simp [hx])
    have hchain3 : List.Chain (fun a b => b.start_page_idx = a.end_page_idx + 1)
        (merge_next_part acc d) ds := by
      cases ds with
      | nil => exact List.Chain.nil
      | cons e es =>
        rw [List.chain_cons] at hchain2 ⊢
        exact ⟨hchain2.1, hchain2.2⟩
    obtain ⟨hmd, hck, hend, hstart, hdt⟩ := ih (merge_next_part acc d) hchain3 hwf2
    rw [List.foldl_cons]
    refine ⟨?_, ?_, ?_, ?_, ?_⟩
    · rw [hmd]
      cases ds with
      | nil => simp [expectedMergedMarkdown, merge_next_part]
      | cons e es =>
        simp [expectedMergedMarkdown, merge_next_part, String.append_assoc]
    · rw [hck]
      have hoff : (merge_next_part acc d).end_page_idx + 1
          = (acc.end_page_idx + 1) + pageCount d := by
        simp only [merge_next_part, pageCount]
        omega
      rw [hoff]
      simp [merge_next_part, expectedMergedChunks, List.append_assoc]
    · rw [hend, List.getLastD_cons]
      cases ds with
      | nil => simp [merge_next_part]
      | cons e es => rw [List.getLastD_cons, List.getLastD_cons]
    · rw [hstart]; rfl
    · rw [hdt]; rfl

/-- C2: for every non-empty ordered list of per-part results whose page
ranges are well-formed and consecutive from page 0, the Merger folds them
left to right from the first part; the merged markdown is the parts'
markdowns joined by blank lines, the merged chunk list is the
concatenation of the parts' chunks with part `k`'s grounding pages offset
by the sum of the page counts of parts `0..k-1` (the accumulator's
trailing page count), and the merged result carries the last part's end
page and the first part's start page. -/
theorem merge_part_results_correct (p : ParsedDocument) (rest : List ParsedDocument)
    (h0 : p.start_page_idx = 0)
    (hchain : List.Chain (fun a b => b.start_page_idx = a.end_page_idx + 1) p rest)
    (hwf : ∀ d ∈ p :: rest, d.start_page_idx ≤ d.end_page_idx) :
    merge_part_results (p :: rest) = rest.foldl merge_next_part p
      ∧ (merge_part_results (p :: rest)).markdown = expectedMergedMarkdown (p :: rest)
      ∧ (merge_part_results (p :: rest)).chunks = expectedMergedChunks 0 (p :: rest)
      ∧ (merge_part_results (p :: rest)).end_page_idx = (rest.getLastD p).end_page_idx
      ∧ (merge_part_results (p :: rest)).start_page_idx = p.start_page_idx := by
  obtain ⟨hmd, hck, hend, hstart, _⟩ :=
    foldl_merge_spec rest p hchain (fun d hd => hwf d (List.mem_cons_of_mem _ hd))
  have hfold : merge_part_results (p :: rest) = rest.foldl merge_next_part p := rfl
  refine ⟨hfold, by rw [hfold, hmd], ?_, by rw [hfold, hend], by rw [hfold, hstart]⟩
  rw [hfold, hck, expectedMergedChunks]
  have hpc : 0 + pageCount p = p.end_page_idx + 1 := by
    have := hwf p (by simp)
    simp only [pageCount]
    omega
  rw [hpc]
  congr 1
  exact (map_offsetChunk_zero p.chunks).symm

/-- C2 witness: the theorem applied to the two-part merge of the unit test
`test_merge_part_results_multiple_items` (box-free groundings). -/
theorem merge_part_results_correct_witness :
    (({ markdown := "# Document 1",
        chunks := [{ text := "Document 1", chunk_type := ChunkType.title,
                     chunk_id := "1", grounding := [{ page := 0, box := none }] }],
        start_page_idx := 0, end_page_idx := 0,
        doc_type := "pdf" } : ParsedDocument).start_page_idx = 0)
      ∧ ((merge_part_results
          [{ markdown := "# Document 1",
             chunks := [{ text := "Document 1", chunk_type := ChunkType.title,
                          chunk_id := "1", grounding := [{ page := 0, box := none }] }],
             start_page_idx := 0, end_page_idx := 0, doc_type := "pdf" },
           { markdown := "# Document 2",
             chunks := [{ text := "Document 2", chunk_type := ChunkType.title,
                          chunk_id := "2", grounding := [{ page := 0, box := none }] }],
             start_page_idx := 1, end_page_idx := 1, doc_type := "pdf" }]).markdown
        = expectedMergedMarkdown
          [{ markdown := "# Document 1",
             chunks := [{ text := "Document 1", chunk_type := ChunkType.title,
                          chunk_id := "1", grounding := [{ page := 0, box := none }] }],
             start_page_idx := 0, end_page_idx := 0, doc_type := "pdf" },
           { markdown := "# Document 2",
             chunks := [{ text := "Document 2", chunk_type := ChunkType.title,
                          chunk_id := "2", grounding := [{ page := 0, box := none }] }],
             start_page_idx := 1, end_page_idx := 1, doc_type := "pdf" }]) := by
  have h := merge_part_results_correct
    { markdown := "# Document 1",
      chunks := [{ text := "Document 1", chunk_type := ChunkType.title,
                   chunk_id := "1", grounding := [{ page := 0, box := none }] }],
      start_page_idx := 0, end_page_idx := 0, doc_type := "pdf" }
    [{ markdown := "# Document 2",
       chunks := [{ text := "Document 2", chunk_type := ChunkType.title,
                    chunk_id := "2", grounding := [{ page := 0, box := none }] }],
       start_page_idx := 1, end_page_idx := 1, doc_type := "pdf" }]
    rfl (List.Chain.cons rfl List.Chain.nil) (by decide)
  exact ⟨rfl, h.2.1⟩

/-- C4: for every part whose remote request fails terminally, parsing the
part returns normally (a total function of the failure, no exception) with
exactly one error chunk per page of the part's range, each carrying the
underlying error's message as its text and one grounding on the
corresponding page, and the part's page range preserved. -/
theorem parse_doc_parts_error_chunks (doc : Document) (msg : String)
    (hwf : doc.start_page_idx ≤ doc.end_page_idx) :
    (parse_doc_parts doc (.error msg)).start_page_idx = doc.start_page_idx
      ∧ (parse_doc_parts doc (.error msg)).end_page_idx = doc.end_page_idx
      ∧ (parse_doc_parts doc (.error msg)).chunks.length
          = doc.end_page_idx + 1 - doc.start_page_idx
      ∧ 1 ≤ (parse_doc_parts doc (.error msg)).chunks.length
      ∧ (∀ c ∈ (parse_doc_parts doc (.error msg)).chunks,
          c.chunk_type = ChunkType.error ∧ c.text = msg)
      ∧ (parse_doc_parts doc (.error msg)).chunks.map
            (fun c => c.grounding.map (fun g => g.page))
          = (Document.pages doc).map (fun pg => [pg]) := by
  refine ⟨rfl, rfl, ?_, ?_, ?_, ?_⟩
  · simp [parse_doc_parts, Document.pages]
  · simp only [parse_doc_parts, List.length_map, Document.pages, List.length_range']
    omega
  · intro c hc
    simp only [parse_doc_parts, List.mem_map] at hc
    obtain ⟨pg, _, rfl⟩ := hc
    exact ⟨rfl, rfl⟩
  · simp only [parse_doc_parts, List.map_map]
    rfl

/-- C4 witness: the theorem applied to the two-page part of
`test_parse_doc_parts_error`. -/
theorem parse_doc_parts_error_chunks_witness :
    (({ file_path := "/path/to/doc.pdf", start_page_idx := 0,
        end_page_idx := 1 } : Document).start_page_idx
      ≤ ({ file_path := "/path/to/doc.pdf", start_page_idx := 0,
           end_page_idx := 1 } : Document).end_page_idx)
      ∧ (parse_doc_parts
            { file_path := "/path/to/doc.pdf", start_page_idx := 0, end_page_idx := 1 }
            (.error "Test error")).chunks.length = 1 + 1 - 0
      ∧ (∀ c ∈ (parse_doc_parts
            { file_path := "/path/to/doc.pdf", start_page_idx := 0, end_page_idx := 1 }
            (.error "Test error")).chunks,
          c.chunk_type = ChunkType.error ∧ c.text = "Test error") := by
  have h := parse_doc_parts_error_chunks
    { file_path := "/path/to/doc.pdf", start_page_idx := 0, end_page_idx := 1 }
    "Test error" (by decide)
  exact ⟨by decide, h.2.2.1, h.2.2.2.2.1⟩

/-- C5: the Request Client classifies every endpoint interaction — a status
in the retryable set (429 and the 5xx overload/timeout codes 502/503/504)
raises a `RetryableError` carrying the response's status and body; a 2xx
status returns the parsed payload; any other non-2xx status or a transport
failure raises a terminal error; and the `RetryableError` from
`test_send_parsing_request_retryable_error` stringifies as
`"429 - Rate limit exceeded"`. -/
theorem send_parsing_request_classification (status : ℕ) (body : String)
    (payload : ParsePayload) (detail : String) :
    (status ∈ RETRYABLE_STATUSES →
        send_parsing_request (.http status body payload)
          = .retryableError status body)
      ∧ (¬ status ∈ RETRYABLE_STATUSES → 200 ≤ status ∧ status < 300 →
        send_parsing_request (.http status body payload) = .success payload)
      ∧ (¬ status ∈ RETRYABLE_STATUSES → ¬ (200 ≤ status ∧ status < 300) →
        send_parsing_request (.http status body payload)
          = .terminalError (toString status ++ " - " ++ body))
      ∧ send_parsing_request (.transportFailure detail) = .terminalError detail
      ∧ (429 ∈ RETRYABLE_STATUSES ∧ 502 ∈ RETRYABLE_STATUSES
          ∧ 503 ∈ RETRYABLE_STATUSES ∧ 504 ∈ RETRYABLE_STATUSES)
      ∧ retryableErrorMessage 429 "Rate limit exceeded" = "429 - Rate limit exceeded" := by
  refine ⟨?_, ?_, ?_, rfl, by decide, rfl⟩
  · intro hmem
    simp [send_parsing_request, hmem]
  · intro hmem h2xx
    simp [send_parsing_request, hmem, h2xx]
  · intro hmem h2xx
    simp [send_parsing_request, hmem, h2xx]

/-- C5 witness: the theorem applied to the 429 rate-limit response of
`test_send_parsing_request_retryable_error`. -/
theorem send_parsing_request_classification_witness :
    429 ∈ RETRYABLE_STATUSES
      ∧ send_parsing_request
          (.http 429 "Rate limit exceeded" { markdown := "Test", chunks := [] })
        = .retryableError 429 "Rate limit exceeded" :=
  ⟨by decide,
    (send_parsing_request_classification 429 "Rate limit exceeded"
      { markdown := "Test", chunks := [] } "").1 (by decide)⟩

/-- A valid retry-logging style never makes the logging callback raise; it
returns some list of diagnostics. -/
theorem log_retry_failure_ok (style func_name : String) (attempt : ℕ)
    (msg : String) (h : validRetryStyle style) :
    ∃ ds, log_retry_failure style func_name attempt true msg = .ok ds := by
  rcases h with h | h | h <;> subst h
  · exact ⟨[], rfl⟩
  · exact ⟨[.debugLog func_name attempt msg], rfl⟩
  · exact ⟨[.progressBlock attempt], rfl⟩

/-- The retry loop's control flow — result, attempt count and backoff
waits — does not depend on which valid logging style is configured. -/
theorem retryRun_style_agnostic (s1 s2 func_name : String)
    (o : ℕ → AttemptOutcome) (max_wait : ℕ)
    (h1 : validRetryStyle s1) (h2 : validRetryStyle s2) :
    ∀ rem attempt,
      (retryRun s1 func_name o max_wait rem attempt).result
          = (retryRun s2 func_name o max_wait rem attempt).result
        ∧ (retryRun s1 func_name o max_wait rem attempt).attempts
            = (retryRun s2 func_name o max_wait rem attempt).attempts
        ∧ (retryRun s1 func_name o max_wait rem attempt).waits
            = (retryRun s2 func_name o max_wait rem attempt).waits := by
  intro rem
  induction rem with
  | zero => intro attempt; exact ⟨rfl, rfl, rfl⟩
  | succ n ih =>
    intro attempt
    cases ho : o attempt with
    | success p => simp [retryRun, ho]
    | terminal m => simp [retryRun, ho]
    | retryable m =>
      obtain ⟨d1, hd1⟩ := log_retry_failure_ok s1 func_name attempt m h1
      obtain ⟨d2, hd2⟩ := log_retry_failure_ok s2 func_name attempt m h2
      by_cases hn : n = 0
      · subst hn
        simp [retryRun, ho, hd1, hd2]
      · obtain ⟨hr, ha, hw⟩ := ih (attempt + 1)
        simp [retryRun, ho, hd1, hd2, hn, hr, ha, hw]

/-- C9: for every pair of valid retry-logging styles and every sequence of
request outcomes, the retry policy makes the same number of attempts,
applies the same backoff waits, and produces the same final result; the
style changes only the diagnostics. -/
theorem retry_style_noninterference (s1 s2 func_name : String)
    (o : ℕ → AttemptOutcome) (max_retries max_wait : ℕ)
    (h1 : validRetryStyle s1) (h2 : validRetryStyle s2) :
    (retry_policy_run s1 func_name o max_retries max_wait).result
        = (retry_policy_run s2 func_name o max_retries max_wait).result
      ∧ (retry_policy_run s1 func_name o max_retries max_wait).attempts
          = (retry_policy_run s2 func_name o max_retries max_wait).attempts
      ∧ (retry_policy_run s1 func_name o max_retries max_wait).waits
          = (retry_policy_run s2 func_name o max_retries max_wait).waits :=
  retryRun_style_agnostic s1 s2 func_name o max_wait h1 h2 max_retries 1

/-- C9 witness: the theorem applied to the silent and inline-block styles
over a run that fails retryably three times and then succeeds. -/
theorem retry_style_noninterference_witness :
    (validRetryStyle "none" ∧ validRetryStyle "inline_block")
      ∧ ((retry_policy_run "none" "send"
            (fun k => if k < 4 then .retryable "overloaded"
                      else .success { markdown := "ok", chunks := [] }) 100 60).result
          = (retry_policy_run "inline_block" "send"
            (fun k => if k < 4 then .retryable "overloaded"
                      else .success { markdown := "ok", chunks := [] }) 100 60).result
        ∧ (retry_policy_run "none" "send"
            (fun k => if k < 4 then .retryable "overloaded"
                      else .success { markdown := "ok", chunks := [] }) 100 60).attempts
          = (retry_policy_run "inline_block" "send"
            (fun k => if k < 4 then .retryable "overloaded"
                      else .success { markdown := "ok", chunks := [] }) 100 60).attempts
        ∧ (retry_policy_run "none" "send"
            (fun k => if k < 4 then .retryable "overloaded"
                      else .success { markdown := "ok", chunks := [] }) 100 60).waits
          = (retry_policy_run "inline_block" "send"
            (fun k => if k < 4 then .retryable "overloaded"
                      else .success { markdown := "ok", chunks := [] }) 100 60).waits) :=
  ⟨⟨by decide, by decide⟩,
    retry_style_noninterference "none" "inline_block" "send"
      (fun k => if k < 4 then .retryable "overloaded"
                else .success { markdown := "ok", chunks := [] }) 100 60
      (by decide) (by decide)⟩

/-- C7 counterexample: a chunk with bounding-boxed groundings on pages 0
and 1 is grouped under its first grounding's page 0, so the grounding on
page 1 is cropped from the raster of page 0 — not from the raster of its
own page, refuting the claim as stated. -/
theorem save_groundings_counterexample :
    ∃ r ∈ save_groundings_as_images_pdf
      [{ text := "t", chunk_type := ChunkType.text, chunk_id := "c1",
         grounding := [{ page := 0, box := some { l := 0, t := 0, r := 1, b := 1 } },
                       { page := 1, box := some { l := 0, t := 0, r := 1, b := 1 } }] }],
      ¬ r.rendered_page = r.grounding_page := by
  decide

/-- C7 (amended): every crop is taken from the raster of its chunk's
*first* grounding's page; consequently, whenever every grounding of a
non-error chunk lies on that chunk's first grounding's page (in particular
for single-grounding chunks), each crop is produced from the raster of the
grounding's own page. -/
theorem save_groundings_renders_first_grounding_page (chunks : List Chunk)
    (h : ∀ c ∈ chunks, ¬ c.chunk_type = ChunkType.error →
      ∀ g ∈ c.grounding, g.page = firstGroundingPage c) :
    ∀ r ∈ save_groundings_as_images_pdf chunks,
      r.rendered_page = r.grounding_page := by
  intro r hr
  simp only [save_groundings_as_images_pdf, List.mem_flatten, List.mem_map] at hr
  obtain ⟨L, ⟨pg, hpg, rfl⟩, hrL⟩ := hr
  simp only [List.mem_flatten, List.mem_map] at hrL
  obtain ⟨L2, ⟨c, hc, rfl⟩, hrc⟩ := hrL
  rw [List.mem_filter] at hc
  obtain ⟨hc1, hc2⟩ := hc
  rw [List.mem_filter] at hc1
  obtain ⟨hcmem, hcerr⟩ := hc1
  have hcerr2 : ¬ c.chunk_type = ChunkType.error := of_decide_eq_true hcerr
  have hcp : firstGroundingPage c = pg := of_decide_eq_true hc2
  unfold cropGroundings at hrc
  rw [if_neg hcerr2] at hrc
  simp only [List.mem_filterMap] at hrc
  obtain ⟨ig, hig, hmk⟩ := hrc
  have hgmem : ig.2 ∈ c.grounding := by
    have h2 := List.mem_map_of_mem Prod.snd hig
    rwa [List.enum_map_snd] at h2
  cases hbox : ig.2.box with
  | none => rw [hbox] at hmk; cases hmk
  | some b =>
    rw [hbox] at hmk
    have hr2 : r = { chunk_id := c.chunk_id, grounding_idx := ig.1,
                     rendered_page := pg, grounding_page := ig.2.page } := by
      injection hmk with hmk2
      exact hmk2.symm
    rw [hr2]
    dsimp only
    rw [← hcp]
    exact (h c hcmem hcerr2 ig.2 hgmem).symm

/-- C7 witness (amended theorem): a single chunk whose two groundings both
lie on its first grounding's page is cropped from its own page's raster. -/
theorem save_groundings_renders_first_grounding_page_witness :
    (∀ c ∈ [({ text := "t", chunk_type := ChunkType.text, chunk_id := "c1",
               grounding := [{ page := 3, box := some { l := 0, t := 0, r := 1, b := 1 } },
                             { page := 3, box := none }] } : Chunk)],
        ¬ c.chunk_type = ChunkType.error →
          ∀ g ∈ c.grounding, g.page = firstGroundingPage c)
      ∧ (∀ r ∈ save_groundings_as_images_pdf
          [{ text := "t", chunk_type := ChunkType.text, chunk_id := "c1",
             grounding := [{ page := 3, box := some { l := 0, t := 0, r := 1, b := 1 } },
                           { page := 3, box := none }] }],
          r.rendered_page = r.grounding_page) :=
  ⟨by decide,
    save_groundings_renders_first_grounding_page
      [{ text := "t", chunk_type := ChunkType.text, chunk_id := "c1",
         grounding := [{ page := 3, box := some { l := 0, t := 0, r := 1, b := 1 } },
                       { page := 3, box := none }] }]
      (by decide)⟩

end AgenticDoc
